import Mathlib

/-!
Verification of the driver `main.py` of the maml-rl-tf2 repository.

The driver is glue code around the meta-optimization engine: it builds the
sampler, policy, baseline, optimizer and meta-learner from parsed CLI
arguments, runs `num_batches` meta-iterations (sample tasks, collect
pre/post-adaptation episodes, apply the meta-step), logs two scalar metrics
per iteration, and periodically checkpoints the policy and baseline weights.

The embedding below models:
  * the TensorFlow operations used by `total_rewards`
    (`tf.reduce_sum(.., axis=0)`, `tf.math.reduce_mean`, `tf.stack`,
    `tf.rank`) over rational-valued tensors with an explicit NaN element;
  * the parsed argument record (`Args`, one field per `add_argument` call);
  * the per-iteration driver loop as a pure function of the configuration and
    of opaque collaborator functions (sampler / meta-learner / checkpointing
    are out of scope per the spec and appear only at their call boundary),
    producing a trace of the externally visible events in program order.

Python floats are modelled as rationals (ℚ) together with a NaN marker; the
claims settled here are about aggregation structure, control flow and data
routing, not about rounding.
-/

/-- A TensorFlow scalar value: either a (finite) number, modelled as a
rational, or NaN.  NaN arises in this driver only from `reduce_mean` over an
empty tensor. -/
inductive TVal where
  | num : ℚ → TVal
  | nan : TVal
deriving DecidableEq

/-- Addition of scalar values; NaN is absorbing, as in IEEE arithmetic. -/
def TVal.add : TVal → TVal → TVal
  | TVal.num a, TVal.num b => TVal.num (a + b)
  | _, _ => TVal.nan

/-- Division of a scalar value by a natural count; division by zero is NaN
(`reduce_mean` over an empty tensor). -/
def TVal.divNat : TVal → ℕ → TVal
  | TVal.num a, n => if n = 0 then TVal.nan else TVal.num (a / (n : ℚ))
  | TVal.nan, _ => TVal.nan

/-- A TensorFlow tensor, as a nesting of scalar values: a rank-0 tensor is a
scalar, a rank-(r+1) tensor is a list of rank-r tensors (its slices along
axis 0). -/
inductive Tensor where
  | scalar : TVal → Tensor
  | tensor : List Tensor → Tensor

mutual

/-- `tf.rank`: 0 for a scalar, one more than the rank of the axis-0 slices
otherwise (an empty axis-0 dimension still contributes one axis, as for the
shape-`(0,)` tensor produced by stacking an empty list). -/
def Tensor.rank : Tensor → ℕ
  | Tensor.scalar _ => 0
  | Tensor.tensor ts => Tensor.rankL ts + 1

/-- Rank of the element tensors of a non-scalar tensor (0 when there are
none). -/
def Tensor.rankL : List Tensor → ℕ
  | [] => 0
  | t :: _ => Tensor.rank t

end

mutual

/-- Pointwise addition of two tensors of equal shape (used to model summing
over axis 0).  Shape mismatches, which cannot arise in this driver, collapse
to NaN. -/
def Tensor.addT : Tensor → Tensor → Tensor
  | Tensor.scalar a, Tensor.scalar b => Tensor.scalar (TVal.add a b)
  | Tensor.tensor xs, Tensor.tensor ys => Tensor.tensor (Tensor.addL xs ys)
  | _, _ => Tensor.scalar TVal.nan

/-- Pointwise addition of two lists of tensors. -/
def Tensor.addL : List Tensor → List Tensor → List Tensor
  | x :: xs, y :: ys => Tensor.addT x y :: Tensor.addL xs ys
  | _, _ => []

end

mutual

/-- All scalar entries of a tensor, flattened. -/
def Tensor.toVals : Tensor → List TVal
  | Tensor.scalar v => [v]
  | Tensor.tensor ts => Tensor.toValsL ts

/-- All scalar entries of a list of tensors, flattened. -/
def Tensor.toValsL : List Tensor → List TVal
  | [] => []
  | t :: ts => Tensor.toVals t ++ Tensor.toValsL ts

end

/-- Sum of the axis-0 slices of a tensor (the core of
`tf.reduce_sum(x, axis=0)`); the empty sum is the scalar 0. -/
def sumTensors : List Tensor → Tensor
  | [] => Tensor.scalar (TVal.num 0)
  | [t] => t
  | t :: ts => Tensor.addT t (sumTensors ts)

/-- `tf.reduce_sum(x, axis=0)`: sum the slices along the first axis.  On a
rank-0 tensor (which cannot arise in this driver) axis 0 does not exist; the
model returns the input. -/
def tf_reduce_sum_axis0 : Tensor → Tensor
  | Tensor.tensor ts => sumTensors ts
  | Tensor.scalar v => Tensor.scalar v

/-- Sum of a list of scalar values. -/
def sumVals (l : List TVal) : TVal := l.foldr TVal.add (TVal.num 0)

/-- `tf.math.reduce_mean` with no axis argument: the mean of all entries, as
a rank-0 tensor; the mean of an empty tensor is NaN. -/
def tf_reduce_mean (t : Tensor) : Tensor :=
  Tensor.scalar (TVal.divNat (sumVals (Tensor.toVals t)) (Tensor.toVals t).length)

/-- `tf.stack(ts, axis=0)`: pack a list of tensors along a new axis 0.  For
the empty list TensorFlow's `stack` falls back to `convert_to_tensor([])`
and yields an empty shape-`(0,)` tensor (it does not raise), which this
model renders as `Tensor.tensor []`. -/
def tf_stack (ts : List Tensor) : Tensor := Tensor.tensor ts

/-- `total_rewards` from `main.py`: per element of `episodes_rewards`
(a rank-2 tensor of rewards, axis 0 = timestep, axis 1 = episode) sum over
axis 0 and aggregate; stack the per-element scalars and take their mean.
The `assert tf.rank(rewards) == 0` is modelled by returning `none` when the
rank test fails (a failed Python `assert` raises). -/
def total_rewards (episodes_rewards : List Tensor)
    (aggregation : Tensor → Tensor) : Option Tensor :=
  let rewards := tf_reduce_mean (tf_stack (episodes_rewards.map
      (fun rewards => aggregation (tf_reduce_sum_axis0 rewards))))
  if Tensor.rank rewards = 0 then some rewards else none

/-- A rank-1 tensor of numeric entries. -/
def vecT (v : List ℚ) : Tensor :=
  Tensor.tensor (v.map (fun q => Tensor.scalar (TVal.num q)))

/-- A rank-2 tensor of numeric entries, given as its axis-0 slices (rows). -/
def matT (rows : List (List ℚ)) : Tensor := Tensor.tensor (rows.map vecT)

/-- Columnwise sums of a list of rows (pointwise, truncating to the shortest
row, which is irrelevant on equal-length rows). -/
def colSums : List (List ℚ) → List ℚ
  | [] => []
  | [r] => r
  | r :: rs => List.zipWith (· + ·) r (colSums rs)

/-- The mean of a list of rationals (0 on the empty list, which is excluded
by hypothesis wherever this is used). -/
def meanQ (l : List ℚ) : ℚ := l.sum / (l.length : ℚ)

/-- The spec-side reading of the inner aggregation: for a reward matrix with
`B` episodes (columns), the per-episode total reward, episode by episode. -/
def perEpisodeTotals (B : ℕ) (rows : List (List ℚ)) : List ℚ :=
  (List.range B).map (fun j => (rows.map (fun r => r.getD j 0)).sum)

/-- The parsed command-line arguments of `main.py`, one field per
`add_argument` call (one per configuration value; integral counts as ℕ,
float-valued hyperparameters as ℚ).  The source names the backtrack ratio
`ls-backtrack-ratio`; the field is shortened to `ls_backtrack` here. -/
structure Args where
  env_name : String
  gamma : ℚ
  tau : ℚ
  first_order : Bool
  hidden_size : ℕ
  num_layers : ℕ
  fast_batch_size : ℕ
  fast_lr : ℚ
  num_batches : ℕ
  meta_batch_size : ℕ
  max_kl : ℚ
  cg_iters : ℕ
  cg_damping : ℚ
  ls_max_steps : ℕ
  ls_backtrack : ℚ
  output_folder : String
  num_workers : ℕ
  save_iters : ℕ
  device : String

/-- The externally visible events emitted by one run of the driver loop, in
program order: the `sampler.sample_tasks(num_tasks=...)` call, the
`metalearner.sample(tasks, first_order=...)` call, the
`metalearner.step(episodes)` call, each `tf.summary.scalar(tag, value,
step)` write, and each `save_weights` call (with its file path). -/
inductive Event (Task : Type) where
  | sampleTasks : ℕ → List Task → Event Task
  | mlSample : List Task → Bool → Event Task
  | mlStep : Event Task
  | scalar : String → Tensor → ℕ → Event Task
  | saveWeights : String → Event Task

/-- The collaborators of the driver (sampler, meta-learner, episode reward
accessor), out of scope per the spec and abstracted as opaque functions.
`S` is the sampler-side state (environment RNG etc.), threaded explicitly;
`init` produces the initial state from a seed.  `Params` is the shared
policy parameter state mutated only by `ml_step`. -/
structure Collaborators (Task Ep Params S : Type) where
  init : ℕ → S
  sample_tasks : ℕ → S → List Task × S
  ml_sample : List Task → Bool → Params → S → List (Ep × Ep) × S
  ml_step : List (Ep × Ep) → Params → Params
  rewards : Ep → Tensor

/-- The checkpoint path `save_folder + f"/<name>-<i>"` with
`save_folder = './saves/' + output_folder`. -/
def savePath (output_folder name : String) (i : ℕ) : String :=
  "./saves/" ++ output_folder ++ "/" ++ name ++ "-" ++ toString i

/-- The body of `for batch in range(args.num_batches)` in `main`: sample
`meta_batch_size` tasks, collect episodes with the `first_order` flag passed
explicitly, apply the meta-step, log the two reward scalars tagged with the
iteration index, and checkpoint when `(batch+1) % save_iters == 0`.
`none` models an uncaught Python exception: a failed `assert` in
`total_rewards`, or `ZeroDivisionError` when `save_iters = 0` (the modulo in
the checkpoint test; in the source this would fire after the scalars are
written — the partial trace of a failed cycle is not modelled). -/
def runBatch {Task Ep Params S : Type} (C : Collaborators Task Ep Params S)
    (args : Args) (batch : ℕ) (s : S) (p : Params) :
    Option (List (Event Task) × S × Params) :=
  let ts := C.sample_tasks args.meta_batch_size s
  let es := C.ml_sample ts.1 args.first_order p ts.2
  let p2 := C.ml_step es.1 p
  (total_rewards (es.1.map (fun pr => C.rewards pr.1)) tf_reduce_mean).bind (fun rb =>
  (total_rewards (es.1.map (fun pr => C.rewards pr.2)) tf_reduce_mean).bind (fun ra =>
  (if args.save_iters = 0 then none
   else some (if (batch + 1) % args.save_iters = 0 then
      [Event.saveWeights (savePath args.output_folder "policy" (batch + 1)),
       Event.saveWeights (savePath args.output_folder "baseline" (batch + 1))]
    else [])).bind (fun saves =>
  some (Event.sampleTasks args.meta_batch_size ts.1 ::
        Event.mlSample ts.1 args.first_order ::
        Event.mlStep ::
        Event.scalar "total_rewards/before_update" rb batch ::
        Event.scalar "total_rewards/after_update" ra batch :: saves,
        es.2, p2))))

/-- `n` consecutive iterations of the driver loop starting at iteration
index `batch`, threading the sampler state and the shared parameters and
concatenating the event traces. -/
def runBatches {Task Ep Params S : Type} (C : Collaborators Task Ep Params S)
    (args : Args) : ℕ → ℕ → S → Params → Option (List (Event Task) × S × Params)
  | 0, _, s, p => some ([], s, p)
  | Nat.succ n, batch, s, p =>
    (runBatch C args batch s p).bind (fun r =>
      (runBatches C args n (batch + 1) r.2.1 r.2.2).bind (fun r2 =>
        some (r.1 ++ r2.1, r2.2.1, r2.2.2)))

/-- The whole driver loop of `main`: `num_batches` iterations from iteration
index 0, from the seeded initial sampler state and initial shared
parameters. -/
def main_run {Task Ep Params S : Type} (C : Collaborators Task Ep Params S)
    (args : Args) (seed : ℕ) (p0 : Params) :
    Option (List (Event Task) × S × Params) :=
  runBatches C args args.num_batches 0 (C.init seed) p0

/-- The event trace of a driver run (empty for a run that raised). -/
def runTrace {Task Ep Params S : Type} (C : Collaborators Task Ep Params S)
    (args : Args) (seed : ℕ) (p0 : Params) : List (Event Task) :=
  match main_run C args seed p0 with
  | some r => r.1
  | none => []

/-! ### Lemmas about the tensor aggregation in `total_rewards` -/

theorem addT_vecT (a b : List ℚ) :
    Tensor.addT (vecT a) (vecT b) = vecT (List.zipWith (· + ·) a b) := by
  induction a generalizing b with
  | nil => cases b <;> simp [vecT, Tensor.addT, Tensor.addL]
  | cons x xs ih =>
    cases b with
    | nil => simp [vecT, Tensor.addT, Tensor.addL]
    | cons y ys =>
      have h := ih ys
      simp only [vecT, List.map_cons, List.zipWith_cons_cons] at h ⊢
      simp only [Tensor.addT, Tensor.addL, TVal.add] at h ⊢
      injection h with h1
      rw [h1]

theorem sumTensors_map_vecT (rows : List (List ℚ)) (h : rows ≠ []) :
    sumTensors (rows.map vecT) = vecT (colSums rows) := by
  induction rows with
  | nil => exact absurd rfl h
  | cons r rs ih =>
    cases rs with
    | nil => simp [sumTensors, colSums]
    | cons r2 rs2 =>
      have h2 : (r2 :: rs2 : List (List ℚ)) ≠ [] := by simp
      simp only [List.map_cons, sumTensors, colSums]
      rw [← List.map_cons, ih h2, addT_vecT]

theorem toVals_vecT (v : List ℚ) : Tensor.toVals (vecT v) = v.map TVal.num := by
  induction v with
  | nil => simp [vecT, Tensor.toVals, Tensor.toValsL]
  | cons x xs ih =>
    simp only [vecT, List.map_cons, Tensor.toVals, Tensor.toValsL] at ih ⊢
    simp [ih]

theorem sumVals_map_num (v : List ℚ) : sumVals (v.map TVal.num) = TVal.num v.sum := by
  induction v with
  | nil => simp [sumVals]
  | cons x xs ih =>
    simp only [List.map_cons, sumVals, List.foldr_cons, List.sum_cons] at ih ⊢
    rw [ih]
    simp [TVal.add]

theorem tf_reduce_mean_vecT (v : List ℚ) (h : v ≠ []) :
    tf_reduce_mean (vecT v) = Tensor.scalar (TVal.num (meanQ v)) := by
  have hlen : v.length ≠ 0 := by simpa using h
  simp [tf_reduce_mean, toVals_vecT, sumVals_map_num, TVal.divNat, hlen, meanQ]

theorem range_map_getD (r : List ℚ) (B : ℕ) (h : r.length = B) :
    (List.range B).map (fun j => r.getD j 0) = r := by
  induction r generalizing B with
  | nil => subst h; simp
  | cons x xs ih =>
    subst h
    simp only [List.length_cons]
    rw [List.range_succ_eq_map, List.map_cons, List.map_map]
    have hc : ((fun j => (x :: xs).getD j 0) ∘ Nat.succ) = (fun j => xs.getD j 0) := by
      funext j
      simp [List.getD_cons_succ]
    rw [hc, ih xs.length rfl]
    simp [List.getD_cons_zero]

theorem zipWith_add_map_range (B : ℕ) (f g : ℕ → ℚ) :
    List.zipWith (· + ·) ((List.range B).map f) ((List.range B).map g) =
      (List.range B).map (fun j => f j + g j) := by
  induction B generalizing f g with
  | zero => simp
  | succ n ih =>
    rw [List.range_succ_eq_map]
    simp only [List.map_cons, List.zipWith_cons_cons, List.map_map]
    rw [ih (f ∘ Nat.succ) (g ∘ Nat.succ)]
    rfl

theorem colSums_eq_perEpisodeTotals (B : ℕ) (rows : List (List ℚ))
    (hne : rows ≠ []) (hwf : ∀ r ∈ rows, r.length = B) :
    colSums rows = perEpisodeTotals B rows := by
  induction rows with
  | nil => exact absurd rfl hne
  | cons r rs ih =>
    cases rs with
    | nil =>
      have hr : r.length = B := hwf r (by simp)
      simp only [colSums, perEpisodeTotals, List.map_cons, List.map_nil, List.sum_cons,
        List.sum_nil, add_zero]
      exact (range_map_getD r B hr).symm
    | cons r2 rs2 =>
      have hr : r.length = B := hwf r (by simp)
      have hwf2 : ∀ x ∈ (r2 :: rs2 : List (List ℚ)), x.length = B := by
        intro x hx; exact hwf x (List.mem_cons_of_mem r hx)
      have ihr := ih (by simp) hwf2
      show List.zipWith (· + ·) r (colSums (r2 :: rs2)) = _
      rw [ihr]
      nth_rewrite 1 [← range_map_getD r B hr]
      unfold perEpisodeTotals
      rw [zipWith_add_map_range]
      refine List.map_congr_left ?_
      intro j _
      simp [List.sum_cons]

theorem total_rewards_eq (l : List Tensor) (agg : Tensor → Tensor) :
    total_rewards l agg =
      some (tf_reduce_mean (tf_stack (l.map (fun r => agg (tf_reduce_sum_axis0 r))))) := rfl

theorem tf_reduce_sum_axis0_matT (rows : List (List ℚ)) (h : rows ≠ []) :
    tf_reduce_sum_axis0 (matT rows) = vecT (colSums rows) := by
  simp only [matT, tf_reduce_sum_axis0]
  exact sumTensors_map_vecT rows h

/-- C3: on a non-empty list of well-formed per-episode reward tensors
(each a timestep × episode matrix with `B ≥ 1` episodes), `total_rewards`
with the default aggregation `tf.reduce_mean` returns the single scalar that
is the mean over list entries of the mean over episodes of the per-episode
sum of the timestep rewards (the mean total return). -/
theorem c3_total_rewards_mean_total_return
    (L : List (List (List ℚ))) (B : ℕ) (hL : L ≠ []) (hB : B ≠ 0)
    (hwf : ∀ rows ∈ L, rows ≠ [] ∧ ∀ r ∈ rows, r.length = B) :
    total_rewards (L.map matT) tf_reduce_mean =
      some (Tensor.scalar (TVal.num (meanQ
        (L.map (fun rows => meanQ (perEpisodeTotals B rows)))))) := by
  have hinner : (L.map matT).map (fun r => tf_reduce_mean (tf_reduce_sum_axis0 r)) =
      L.map (fun rows => Tensor.scalar (TVal.num (meanQ (perEpisodeTotals B rows)))) := by
    rw [List.map_map]
    refine List.map_congr_left ?_
    intro rows hrows
    obtain ⟨hne, hlen⟩ := hwf rows hrows
    have h3 : perEpisodeTotals B rows ≠ [] := by
      unfold perEpisodeTotals
      simp only [ne_eq, List.map_eq_nil_iff, List.range_eq_nil]
      exact hB
    show tf_reduce_mean (tf_reduce_sum_axis0 (matT rows)) = _
    rw [tf_reduce_sum_axis0_matT rows hne, colSums_eq_perEpisodeTotals B rows hne hlen,
      tf_reduce_mean_vecT _ h3]
  have hstack : tf_stack (L.map (fun rows =>
      Tensor.scalar (TVal.num (meanQ (perEpisodeTotals B rows))))) =
      vecT (L.map (fun rows => meanQ (perEpisodeTotals B rows))) := by
    simp only [tf_stack, vecT, List.map_map]
    rfl
  have hLm : L.map (fun rows => meanQ (perEpisodeTotals B rows)) ≠ [] := by
    simpa using hL
  rw [total_rewards_eq, hinner, hstack, tf_reduce_mean_vecT _ hLm]

/-- Witness for C3 at a concrete input: one task whose reward matrix has two
timesteps and two episodes. -/
theorem c3_total_rewards_mean_total_return_witness :
    total_rewards ([[[1, 2], [3, 4]]].map matT) tf_reduce_mean =
      some (Tensor.scalar (TVal.num (meanQ
        ([[[1, 2], [3, 4]]].map (fun rows => meanQ (perEpisodeTotals 2 rows)))))) :=
  c3_total_rewards_mean_total_return [[[1, 2], [3, 4]]] 2 (by decide) (by decide) (by decide)

/-- C8 (amended): the rank-0 assertion in `total_rewards` succeeds on every
input (the outer `reduce_mean` always yields a rank-0 tensor), the empty
list included; on the empty list `total_rewards` does not fail — stacking
the empty list yields an empty tensor whose mean is NaN, so a NaN scalar is
returned. -/
theorem c8_rank_assert_total :
    (∀ (l : List Tensor) (agg : Tensor → Tensor), (total_rewards l agg).isSome = true) ∧
    total_rewards [] tf_reduce_mean = some (Tensor.scalar TVal.nan) :=
  ⟨fun _ _ => rfl, rfl⟩

/-- Counterexample to C8 as stated: on the empty list `total_rewards` does
not fail; it returns a value (the NaN scalar). -/
theorem c8_empty_list_returns_value :
    total_rewards [] tf_reduce_mean = some (Tensor.scalar TVal.nan) := rfl

/-! ### Shape of one driver-loop iteration -/

/-- The tasks returned by `sampler.sample_tasks(num_tasks=args.meta_batch_size)`. -/
def tasksOf {Task Ep Params S : Type} (C : Collaborators Task Ep Params S)
    (args : Args) (s : S) : List Task :=
  (C.sample_tasks args.meta_batch_size s).1

/-- The sampler state after the `sample_tasks` call. -/
def samplerMid {Task Ep Params S : Type} (C : Collaborators Task Ep Params S)
    (args : Args) (s : S) : S :=
  (C.sample_tasks args.meta_batch_size s).2

/-- The episode pairs returned by `metalearner.sample(tasks, first_order=args.first_order)`. -/
def epsOf {Task Ep Params S : Type} (C : Collaborators Task Ep Params S)
    (args : Args) (s : S) (p : Params) : List (Ep × Ep) :=
  (C.ml_sample (tasksOf C args s) args.first_order p (samplerMid C args s)).1

/-- The sampler state at the end of one iteration. -/
def stateAfter {Task Ep Params S : Type} (C : Collaborators Task Ep Params S)
    (args : Args) (s : S) (p : Params) : S :=
  (C.ml_sample (tasksOf C args s) args.first_order p (samplerMid C args s)).2

/-- The shared parameters after the `metalearner.step(episodes)` call. -/
def paramsAfter {Task Ep Params S : Type} (C : Collaborators Task Ep Params S)
    (args : Args) (s : S) (p : Params) : Params :=
  C.ml_step (epsOf C args s p) p

/-- The `total_rewards` scalar of the pre-adaptation episodes (first pair
components) of one iteration. -/
def rbVal {Task Ep Params S : Type} (C : Collaborators Task Ep Params S)
    (args : Args) (s : S) (p : Params) : Tensor :=
  tf_reduce_mean (tf_stack ((epsOf C args s p).map
    (fun pr => tf_reduce_mean (tf_reduce_sum_axis0 (C.rewards pr.1)))))

/-- The `total_rewards` scalar of the post-adaptation episodes (second pair
components) of one iteration. -/
def raVal {Task Ep Params S : Type} (C : Collaborators Task Ep Params S)
    (args : Args) (s : S) (p : Params) : Tensor :=
  tf_reduce_mean (tf_stack ((epsOf C args s p).map
    (fun pr => tf_reduce_mean (tf_reduce_sum_axis0 (C.rewards pr.2)))))

/-- The event list of one completed iteration of the driver loop, in program
order. -/
def cycleEvents {Task Ep Params S : Type} (C : Collaborators Task Ep Params S)
    (args : Args) (batch : ℕ) (s : S) (p : Params) : List (Event Task) :=
  Event.sampleTasks args.meta_batch_size (tasksOf C args s) ::
  Event.mlSample (tasksOf C args s) args.first_order ::
  Event.mlStep ::
  Event.scalar "total_rewards/before_update" (rbVal C args s p) batch ::
  Event.scalar "total_rewards/after_update" (raVal C args s p) batch ::
  (if (batch + 1) % args.save_iters = 0 then
    [Event.saveWeights (savePath args.output_folder "policy" (batch + 1)),
     Event.saveWeights (savePath args.output_folder "baseline" (batch + 1))]
   else [])

theorem runBatch_eq {Task Ep Params S : Type} (C : Collaborators Task Ep Params S)
    (args : Args) (batch : ℕ) (s : S) (p : Params) (h : args.save_iters ≠ 0) :
    runBatch C args batch s p =
      some (cycleEvents C args batch s p, stateAfter C args s p, paramsAfter C args s p) := by
  simp [runBatch, total_rewards_eq, h, cycleEvents, tasksOf, samplerMid, epsOf,
    stateAfter, paramsAfter, rbVal, raVal, List.map_map]
  exact ⟨rfl, rfl⟩

theorem runBatch_none {Task Ep Params S : Type} (C : Collaborators Task Ep Params S)
    (args : Args) (batch : ℕ) (s : S) (p : Params) (h : args.save_iters = 0) :
    runBatch C args batch s p = none := by
  simp [runBatch, total_rewards_eq, h]

/-- Recognizer for `tf.summary.scalar` events. -/
def isScalarEvent {Task : Type} : Event Task → Bool
  | Event.scalar _ _ _ => true
  | _ => false

/-- Recognizer for `save_weights` events. -/
def isSaveEvent {Task : Type} : Event Task → Bool
  | Event.saveWeights _ => true
  | _ => false

/-- Check that a `metalearner.sample` event carries a given first-order
flag. -/
def firstOrderOk {Task : Type} (fo : Bool) : Event Task → Bool
  | Event.mlSample _ b => b == fo
  | _ => true

theorem runBatches_all {Task Ep Params S : Type} (C : Collaborators Task Ep Params S)
    (args : Args) (P : Event Task → Bool)
    (hP : ∀ (batch : ℕ) (s : S) (p : Params), (cycleEvents C args batch s p).all P = true) :
    ∀ (n batch : ℕ) (s : S) (p : Params) (evs : List (Event Task)) (s2 : S) (p2 : Params),
      runBatches C args n batch s p = some (evs, s2, p2) → evs.all P = true := by
  intro n
  induction n with
  | zero =>
    intro batch s p evs s2 p2 hrun
    simp only [runBatches, Option.some.injEq, Prod.mk.injEq] at hrun
    rw [← hrun.1]
    rfl
  | succ n ih =>
    intro batch s p evs s2 p2 hrun
    by_cases h0 : args.save_iters = 0
    · rw [show runBatches C args (n + 1) batch s p =
          (runBatch C args batch s p).bind (fun r =>
            (runBatches C args n (batch + 1) r.2.1 r.2.2).bind (fun r2 =>
              some (r.1 ++ r2.1, r2.2.1, r2.2.2))) from rfl,
        runBatch_none C args batch s p h0] at hrun
      simp at hrun
    · rw [show runBatches C args (n + 1) batch s p =
          (runBatch C args batch s p).bind (fun r =>
            (runBatches C args n (batch + 1) r.2.1 r.2.2).bind (fun r2 =>
              some (r.1 ++ r2.1, r2.2.1, r2.2.2))) from rfl,
        runBatch_eq C args batch s p h0] at hrun
      simp only [Option.some_bind] at hrun
      cases hrest : runBatches C args n (batch + 1) (stateAfter C args s p) (paramsAfter C args s p) with
      | none => rw [hrest] at hrun; simp at hrun
      | some r2 =>
        obtain ⟨evs2, s2x, p2x⟩ := r2
        rw [hrest] at hrun
        simp only [Option.some_bind, Option.some.injEq, Prod.mk.injEq] at hrun
        rw [← hrun.1, List.all_append, hP batch s p,
          ih (batch + 1) (stateAfter C args s p) (paramsAfter C args s p) evs2 s2x p2x hrest]
        rfl

/-- C1: on every meta-iteration the driver passes the configured
`first_order` flag, unchanged, as the explicit argument of the
`metalearner.sample` call: every `mlSample` event of a run's trace carries
exactly `args.first_order`.  In the embedding the flag reaches the call only
as this explicit argument — no ambient or global state exists that a
component could read it from. -/
theorem c1_first_order_explicit {Task Ep Params S : Type}
    (C : Collaborators Task Ep Params S) (args : Args) (seed : ℕ) (p0 : Params) :
    (runTrace C args seed p0).all (firstOrderOk args.first_order) = true := by
  unfold runTrace
  cases hrun : main_run C args seed p0 with
  | none => rfl
  | some r =>
    obtain ⟨evs, s2, p2⟩ := r
    refine runBatches_all C args _ ?_ args.num_batches 0 (C.init seed) p0 evs s2 p2 hrun
    intro batch s p
    simp only [cycleEvents, List.all_cons, firstOrderOk, beq_self_eq_true, Bool.true_and]
    split <;> simp [firstOrderOk]

/-- C2: one iteration of the driver loop reports exactly two scalar metrics:
`total_rewards/before_update`, computed by `total_rewards` from the first
(pre-adaptation) component of every episode pair, and
`total_rewards/after_update`, computed from the second (post-adaptation)
component, both tagged with the iteration index of that cycle. -/
theorem c2_two_scalar_metrics {Task Ep Params S : Type}
    (C : Collaborators Task Ep Params S) (args : Args) (batch : ℕ) (s : S) (p : Params)
    (h : args.save_iters ≠ 0) :
    ∃ (evs : List (Event Task)) (s2 : S) (p2 : Params) (rb ra : Tensor),
      runBatch C args batch s p = some (evs, s2, p2) ∧
      total_rewards ((epsOf C args s p).map (fun pr => C.rewards pr.1)) tf_reduce_mean
        = some rb ∧
      total_rewards ((epsOf C args s p).map (fun pr => C.rewards pr.2)) tf_reduce_mean
        = some ra ∧
      evs.filter isScalarEvent =
        [Event.scalar "total_rewards/before_update" rb batch,
         Event.scalar "total_rewards/after_update" ra batch] := by
  refine ⟨cycleEvents C args batch s p, stateAfter C args s p, paramsAfter C args s p,
    rbVal C args s p, raVal C args s p, runBatch_eq C args batch s p h, ?_, ?_, ?_⟩
  · rw [total_rewards_eq, List.map_map]
    rfl
  · rw [total_rewards_eq, List.map_map]
    rfl
  · by_cases hc : (batch + 1) % args.save_iters = 0 <;>
      simp [cycleEvents, isScalarEvent, hc]

/-- A completed meta-iteration cycle at iteration index `i`: first the
`sample_tasks` call requesting exactly `meta_batch_size` tasks, then the
`metalearner.sample` call on those same tasks with the configured
`first_order` flag, then the `metalearner.step` call, then the two scalar
reports tagged `i`, then whatever checkpoint events the cycle produced. -/
def isCycle {Task : Type} (args : Args) (i : ℕ) (evs : List (Event Task)) : Prop :=
  ∃ (tasks : List Task) (rb ra : Tensor) (saves : List (Event Task)),
    evs = Event.sampleTasks args.meta_batch_size tasks ::
          Event.mlSample tasks args.first_order ::
          Event.mlStep ::
          Event.scalar "total_rewards/before_update" rb i ::
          Event.scalar "total_rewards/after_update" ra i :: saves

theorem cycleEvents_isCycle {Task Ep Params S : Type} (C : Collaborators Task Ep Params S)
    (args : Args) (batch : ℕ) (s : S) (p : Params) :
    isCycle args batch (cycleEvents C args batch s p) :=
  ⟨tasksOf C args s, rbVal C args s p, raVal C args s p, _, rfl⟩

theorem runBatches_blocks {Task Ep Params S : Type} (C : Collaborators Task Ep Params S)
    (args : Args) (h : args.save_iters ≠ 0) :
    ∀ (n batch : ℕ) (s : S) (p : Params),
      ∃ (blocks : List (List (Event Task))) (s2 : S) (p2 : Params),
        runBatches C args n batch s p = some (blocks.flatten, s2, p2) ∧
        blocks.length = n ∧
        ∀ i, (hi : i < blocks.length) → isCycle args (batch + i) (blocks.get ⟨i, hi⟩) := by
  intro n
  induction n with
  | zero =>
    intro batch s p
    refine ⟨[], s, p, by simp [runBatches], rfl, ?_⟩
    intro i hi
    simp at hi
  | succ n ih =>
    intro batch s p
    obtain ⟨blocks, s2, p2, hrun, hlen, hcyc⟩ :=
      ih (batch + 1) (stateAfter C args s p) (paramsAfter C args s p)
    refine ⟨cycleEvents C args batch s p :: blocks, s2, p2, ?_, by simp [hlen], ?_⟩
    · rw [show runBatches C args (n + 1) batch s p =
          (runBatch C args batch s p).bind (fun r =>
            (runBatches C args n (batch + 1) r.2.1 r.2.2).bind (fun r2 =>
              some (r.1 ++ r2.1, r2.2.1, r2.2.2))) from rfl,
        runBatch_eq C args batch s p h]
      simp [hrun]
    · intro i hi
      cases i with
      | zero =>
        simpa using cycleEvents_isCycle C args batch s p
      | succ j =>
        have hj : j < blocks.length := by simpa using hi
        have heq : batch + (j + 1) = (batch + 1) + j := by omega
        rw [heq]
        simpa using hcyc j hj

/-- C4: with a positive checkpoint interval, a run of the driver is exactly
`num_batches` complete meta-iteration cycles: the trace partitions into
`num_batches` blocks where the `i`-th block samples exactly
`meta_batch_size` tasks, then collects episodes for those tasks, then
applies the meta-step (followed by the metric and checkpoint events); no
cycle is cancelled once started — the run returns normally with every block
complete. -/
theorem c4_loop_runs_all_cycles {Task Ep Params S : Type}
    (C : Collaborators Task Ep Params S) (args : Args) (seed : ℕ) (p0 : Params)
    (h : args.save_iters ≠ 0) :
    ∃ (blocks : List (List (Event Task))) (s2 : S) (p2 : Params),
      main_run C args seed p0 = some (blocks.flatten, s2, p2) ∧
      blocks.length = args.num_batches ∧
      ∀ i, (hi : i < blocks.length) → isCycle args i (blocks.get ⟨i, hi⟩) := by
  obtain ⟨blocks, s2, p2, hrun, hlen, hcyc⟩ :=
    runBatches_blocks C args h args.num_batches 0 (C.init seed) p0
  refine ⟨blocks, s2, p2, hrun, hlen, ?_⟩
  intro i hi
  simpa using hcyc i hi

theorem filter_save_cycleEvents {Task Ep Params S : Type}
    (C : Collaborators Task Ep Params S) (args : Args) (batch : ℕ) (s : S) (p : Params) :
    (cycleEvents C args batch s p).filter isSaveEvent =
      if (batch + 1) % args.save_iters = 0 then
        [Event.saveWeights (savePath args.output_folder "policy" (batch + 1)),
         Event.saveWeights (savePath args.output_folder "baseline" (batch + 1))]
      else [] := by
  by_cases hc : (batch + 1) % args.save_iters = 0 <;>
    simp [cycleEvents, isSaveEvent, hc]

theorem runBatches_saves {Task Ep Params S : Type} (C : Collaborators Task Ep Params S)
    (args : Args) (h : args.save_iters ≠ 0) :
    ∀ (n batch : ℕ) (s : S) (p : Params) (evs : List (Event Task)) (s2 : S) (p2 : Params),
      runBatches C args n batch s p = some (evs, s2, p2) →
      evs.filter isSaveEvent =
        ((List.range' batch n).filter (fun i => (i + 1) % args.save_iters == 0)).flatMap
          (fun i => [Event.saveWeights (savePath args.output_folder "policy" (i + 1)),
                     Event.saveWeights (savePath args.output_folder "baseline" (i + 1))]) := by
  intro n
  induction n with
  | zero =>
    intro batch s p evs s2 p2 hrun
    simp only [runBatches, Option.some.injEq, Prod.mk.injEq] at hrun
    rw [← hrun.1]
    rfl
  | succ n ih =>
    intro batch s p evs s2 p2 hrun
    rw [show runBatches C args (n + 1) batch s p =
        (runBatch C args batch s p).bind (fun r =>
          (runBatches C args n (batch + 1) r.2.1 r.2.2).bind (fun r2 =>
            some (r.1 ++ r2.1, r2.2.1, r2.2.2))) from rfl,
      runBatch_eq C args batch s p h] at hrun
    simp only [Option.some_bind] at hrun
    cases hrest : runBatches C args n (batch + 1) (stateAfter C args s p) (paramsAfter C args s p) with
    | none => rw [hrest] at hrun; simp at hrun
    | some r2 =>
      obtain ⟨evs2, s2x, p2x⟩ := r2
      rw [hrest] at hrun
      simp only [Option.some_bind, Option.some.injEq, Prod.mk.injEq] at hrun
      rw [← hrun.1, List.filter_append, filter_save_cycleEvents,
        ih (batch + 1) (stateAfter C args s p) (paramsAfter C args s p) evs2 s2x p2x hrest,
        List.range'_succ]
      by_cases hc : (batch + 1) % args.save_iters = 0
      · have hcb : ((batch + 1) % args.save_iters == 0) = true := by simpa using hc
        simp [hc, List.filter_cons, hcb]
      · have hcb : ((batch + 1) % args.save_iters == 0) = false := by simpa using hc
        simp [hc, List.filter_cons, hcb]

/-- C5: with a positive checkpoint interval `save_iters`, the checkpoint
events of a full run are exactly a policy snapshot and a baseline snapshot,
versioned by the 1-based iteration number in the file name, at every
iteration whose 1-based index is a multiple of `save_iters` — and at no
other iteration. -/
theorem c5_checkpoint_schedule {Task Ep Params S : Type}
    (C : Collaborators Task Ep Params S) (args : Args) (seed : ℕ) (p0 : Params)
    (h : args.save_iters ≠ 0) :
    (runTrace C args seed p0).filter isSaveEvent =
      ((List.range args.num_batches).filter (fun i => (i + 1) % args.save_iters == 0)).flatMap
        (fun i => [Event.saveWeights (savePath args.output_folder "policy" (i + 1)),
                   Event.saveWeights (savePath args.output_folder "baseline" (i + 1))]) := by
  obtain ⟨blocks, s2, p2, hrun, -, -⟩ :=
    runBatches_blocks C args h args.num_batches 0 (C.init seed) p0
  rw [show runTrace C args seed p0 = blocks.flatten by
    unfold runTrace
    rw [show main_run C args seed p0 = some (blocks.flatten, s2, p2) from hrun]]
  rw [List.range_eq_range']
  exact runBatches_saves C args h args.num_batches 0 (C.init seed) p0
    blocks.flatten s2 p2 hrun

/-! ### Component construction (configuration routing) -/

/-- The values passed to the `BatchSampler(args.env_name,
batch_size=args.fast_batch_size, num_workers=args.num_workers)`
construction. -/
structure BatchSamplerArgs where
  env_name : String
  batch_size : ℕ
  num_workers : ℕ

/-- The `BatchSampler` construction in `main`. -/
def mkBatchSampler (args : Args) : BatchSamplerArgs :=
  { env_name := args.env_name, batch_size := args.fast_batch_size,
    num_workers := args.num_workers }

/-- The values passed to the `ConjugateGradientOptimizer(args.cg_damping,
args.cg_iters, args.ls_backtrack_ratio, args.ls_max_steps, args.max_kl,
policy)` construction (the policy argument is the shared policy object, not
a configuration value). -/
structure OptimizerArgs where
  cg_damping : ℚ
  cg_iters : ℕ
  ls_backtrack : ℚ
  ls_max_steps : ℕ
  max_kl : ℚ

/-- The `ConjugateGradientOptimizer` construction in `main`. -/
def mkOptimizer (args : Args) : OptimizerArgs :=
  { cg_damping := args.cg_damping, cg_iters := args.cg_iters,
    ls_backtrack := args.ls_backtrack, ls_max_steps := args.ls_max_steps,
    max_kl := args.max_kl }

/-- The configuration values passed to the `MetaLearner(sampler, policy,
baseline, optimizer=..., gamma=args.gamma, fast_lr=args.fast_lr,
tau=args.tau)` construction (the component arguments are objects, not
configuration values). -/
structure MetaLearnerArgs where
  gamma : ℚ
  fast_lr : ℚ
  tau : ℚ

/-- The `MetaLearner` construction in `main`. -/
def mkMetaLearner (args : Args) : MetaLearnerArgs :=
  { gamma := args.gamma, fast_lr := args.fast_lr, tau := args.tau }

/-- Check that a loop-body call event carries exactly the configured value:
`sample_tasks` is invoked with `meta_batch_size` and `metalearner.sample`
with `first_order`. -/
def callsOk {Task : Type} (args : Args) : Event Task → Bool
  | Event.sampleTasks n _ => n == args.meta_batch_size
  | Event.mlSample _ b => b == args.first_order
  | _ => true

/-- C6: every configuration value is routed explicitly to exactly the
component construction or invocation that consumes it: `env_name`, the
per-task trajectory batch size `fast_batch_size` and `num_workers` into the
sampler construction; `cg_damping`, `cg_iters`, the backtrack ratio,
`ls_max_steps` and `max_kl` into the optimizer construction; `gamma`,
`fast_lr` and `tau` into the meta-learner construction; and, on every
iteration of every run, `meta_batch_size` into the `sample_tasks` call and
`first_order` into the `metalearner.sample` call.  In the embedding each
constructor and call receives these values only as explicit arguments —
there is no global state a sub-component could look them up in. -/
theorem c6_explicit_configuration (args : Args) :
    (mkBatchSampler args).env_name = args.env_name ∧
    (mkBatchSampler args).batch_size = args.fast_batch_size ∧
    (mkBatchSampler args).num_workers = args.num_workers ∧
    (mkOptimizer args).cg_damping = args.cg_damping ∧
    (mkOptimizer args).cg_iters = args.cg_iters ∧
    (mkOptimizer args).ls_backtrack = args.ls_backtrack ∧
    (mkOptimizer args).ls_max_steps = args.ls_max_steps ∧
    (mkOptimizer args).max_kl = args.max_kl ∧
    (mkMetaLearner args).gamma = args.gamma ∧
    (mkMetaLearner args).fast_lr = args.fast_lr ∧
    (mkMetaLearner args).tau = args.tau ∧
    (∀ (Task Ep Params S : Type) (C : Collaborators Task Ep Params S)
       (seed : ℕ) (p0 : Params),
       (runTrace C args seed p0).all (callsOk args) = true) := by
  refine ⟨rfl, rfl, rfl, rfl, rfl, rfl, rfl, rfl, rfl, rfl, rfl, ?_⟩
  intro Task Ep Params S C seed p0
  unfold runTrace
  cases hrun : main_run C args seed p0 with
  | none => rfl
  | some r =>
    obtain ⟨evs, s2, p2⟩ := r
    refine runBatches_all C args _ ?_ args.num_batches 0 (C.init seed) p0 evs s2 p2 hrun
    intro batch s p
    simp only [cycleEvents, List.all_cons, callsOk, beq_self_eq_true, Bool.true_and]
    split <;> simp [callsOk]

/-- The shared policy parameters after the first meta-iteration of a run
seeded with `seed` (`none` if that iteration raised). -/
def paramsAfterOneIter {Task Ep Params S : Type} (C : Collaborators Task Ep Params S)
    (args : Args) (seed : ℕ) (p0 : Params) : Option Params :=
  (runBatches C args 1 0 (C.init seed) p0).map (fun r => r.2.2)

/-- C7: two runs of the driver loop with identical seeds and the same
(non-stochastic) collaborators produce identical shared policy parameters
after one meta-iteration: the per-iteration computation is a function of
the configuration, the seed and the sampled data alone — the embedding of
the loop body has no other input it could depend on. -/
theorem c7_deterministic_first_iteration {Task Ep Params S : Type}
    (C : Collaborators Task Ep Params S) (args : Args) (p0 : Params)
    (seed1 seed2 : ℕ) (h : seed1 = seed2) :
    paramsAfterOneIter C args seed1 p0 = paramsAfterOneIter C args seed2 p0 := by
  rw [h]

/-! ### The config.json dictionary and the policy choice -/

/-- A Python value stored in the parsed-arguments dictionary. -/
inductive PyVal where
  | vs : String → PyVal
  | vi : ℤ → PyVal
  | vq : ℚ → PyVal
  | vb : Bool → PyVal
deriving DecidableEq

/-- `vars(args)` for the parsed arguments: the attribute dictionary, in
argparse destination order, as an association list (Python dictionaries keep
insertion order and have unique keys). -/
def varsArgs (args : Args) : List (String × PyVal) :=
  [("env_name", PyVal.vs args.env_name),
   ("gamma", PyVal.vq args.gamma),
   ("tau", PyVal.vq args.tau),
   ("first_order", PyVal.vb args.first_order),
   ("hidden_size", PyVal.vi args.hidden_size),
   ("num_layers", PyVal.vi args.num_layers),
   ("fast_batch_size", PyVal.vi args.fast_batch_size),
   ("fast_lr", PyVal.vq args.fast_lr),
   ("num_batches", PyVal.vi args.num_batches),
   ("meta_batch_size", PyVal.vi args.meta_batch_size),
   ("max_kl", PyVal.vq args.max_kl),
   ("cg_iters", PyVal.vi args.cg_iters),
   ("cg_damping", PyVal.vq args.cg_damping),
   ("ls_max_steps", PyVal.vi args.ls_max_steps),
   ("ls_backtrack_ratio", PyVal.vq args.ls_backtrack),
   ("output_folder", PyVal.vs args.output_folder),
   ("num_workers", PyVal.vi args.num_workers),
   ("save_iters", PyVal.vi args.save_iters),
   ("device", PyVal.vs args.device)]

/-- The dictionary written to `config.json`:
`{k: v for (k, v) in vars(args).items() if k != 'device'}` followed by
`config.update(device=args.device)` — the filtered entries in order, then
the `device` entry (re-)inserted at the end. -/
def configDict (vs : List (String × PyVal)) (device : PyVal) : List (String × PyVal) :=
  (vs.filter (fun kv => kv.1 != "device")) ++ [("device", device)]

theorem lookup_append_of_left_none {α β : Type} [BEq α]
    (l1 l2 : List (α × β)) (k : α) (h : l1.lookup k = none) :
    (l1 ++ l2).lookup k = l2.lookup k := by
  induction l1 with
  | nil => rfl
  | cons kv t ih =>
    obtain ⟨k1, v1⟩ := kv
    cases hk : k == k1 with
    | true =>
      have hsome : List.lookup k ((k1, v1) :: t) = some v1 := by simp [List.lookup, hk]
      rw [hsome] at h
      exact absurd h (by simp)
    | false =>
      have h1 : List.lookup k ((k1, v1) :: t) = List.lookup k t := by simp [List.lookup, hk]
      have h2 : List.lookup k (((k1, v1) :: t) ++ l2) = List.lookup k (t ++ l2) := by
        rw [List.cons_append]
        simp [List.lookup, hk]
      rw [h1] at h
      rw [h2]
      exact ih h

theorem lookup_filter_device_none {β : Type} (l : List (String × β)) :
    (l.filter (fun kv => kv.1 != "device")).lookup "device" = none := by
  induction l with
  | nil => rfl
  | cons kv t ih =>
    obtain ⟨k1, v1⟩ := kv
    by_cases hk : k1 = "device"
    · subst hk
      simp [List.filter_cons, ih]
    · have hbeq : ("device" == k1) = false := beq_eq_false_iff_ne.mpr (Ne.symm hk)
      have hne : (k1 != "device") = true := by simpa using hk
      simp [List.filter_cons, hne, List.lookup, hbeq, ih]

theorem lookup_filter_device_ne {β : Type} (l : List (String × β)) (k : String)
    (hk : k ≠ "device") :
    (l.filter (fun kv => kv.1 != "device")).lookup k = l.lookup k := by
  induction l with
  | nil => rfl
  | cons kv t ih =>
    obtain ⟨k1, v1⟩ := kv
    by_cases h1 : k1 = "device"
    · subst h1
      have hbeq : (k == "device") = false := beq_eq_false_iff_ne.mpr hk
      simp [List.filter_cons, List.lookup, hbeq, ih]
    · have hne : (k1 != "device") = true := by simpa using h1
      by_cases h2 : k = k1
      · subst h2
        simp [List.filter_cons, hne, List.lookup]
      · have hbeq : (k == k1) = false := beq_eq_false_iff_ne.mpr h2
        simp [List.filter_cons, hne, List.lookup, hbeq, ih]


theorem configDict_lookup (l : List (String × PyVal)) (d : PyVal)
    (hd : l.lookup "device" = some d) (k : String) :
    (configDict l d).lookup k = l.lookup k := by
  by_cases hk : k = "device"
  · subst hk
    rw [configDict, lookup_append_of_left_none _ _ _ (lookup_filter_device_none l), hd]
    rfl
  · rw [configDict]
    by_cases hlk : (l.filter (fun kv => kv.1 != "device")).lookup k = none
    · rw [lookup_append_of_left_none _ _ _ hlk]
      rw [lookup_filter_device_ne l k hk] at hlk
      rw [hlk]
      have hbeq : (k == "device") = false := beq_eq_false_iff_ne.mpr hk
      simp [List.lookup, hbeq]
    · obtain ⟨v, hv⟩ := Option.ne_none_iff_exists'.mp hlk
      have hl : l.lookup k = some v := by
        rw [← lookup_filter_device_ne l k hk]
        exact hv
      rw [hl]
      clear hlk hl hd
      induction l with
      | nil => simp [List.lookup] at hv
      | cons kv t ih =>
        obtain ⟨k1, v1⟩ := kv
        by_cases h1 : k1 = "device"
        · subst h1
          rw [show List.filter (fun kv => kv.1 != "device") (("device", v1) :: t) =
              List.filter (fun kv => kv.1 != "device") t by simp] at hv ⊢
          exact ih hv
        · have hne : (k1 != "device") = true := by simpa using h1
          have hfc : List.filter (fun kv => kv.1 != "device") ((k1, v1) :: t) =
              (k1, v1) :: List.filter (fun kv => kv.1 != "device") t := by
            simp [List.filter_cons, hne]
          rw [hfc] at hv ⊢
          rw [List.cons_append]
          cases hk1 : k == k1 with
          | true =>
            have : List.lookup k ((k1, v1) :: (List.filter (fun kv => kv.1 != "device") t)) = some v1 := by
              simp [List.lookup, hk1]
            rw [this] at hv
            simp [List.lookup, hk1, hv]
          | false =>
            have hskip : List.lookup k ((k1, v1) :: (List.filter (fun kv => kv.1 != "device") t)) =
                List.lookup k (List.filter (fun kv => kv.1 != "device") t) := by
              simp [List.lookup, hk1]
            rw [hskip] at hv
            have hgoal : List.lookup k ((k1, v1) :: (List.filter (fun kv => kv.1 != "device") t ++ [("device", d)])) =
                List.lookup k (List.filter (fun kv => kv.1 != "device") t ++ [("device", d)]) := by
              simp [List.lookup, hk1]
            rw [hgoal]
            exact ih hv

/-- C9: the dictionary written to `config.json` — built by filtering the
`device` key out of `vars(args)` and then re-inserting `device` from
`args.device` — is, as a key-value mapping, equal to the full `vars(args)`
mapping; in particular it always records the `device` field. -/
theorem c9_config_json_equals_vars (args : Args) (k : String) :
    (configDict (varsArgs args) (PyVal.vs args.device)).lookup k = (varsArgs args).lookup k ∧
    (configDict (varsArgs args) (PyVal.vs args.device)).lookup "device" =
      some (PyVal.vs args.device) := by
  have hd : (varsArgs args).lookup "device" = some (PyVal.vs args.device) := by
    simp [varsArgs, List.lookup]
  exact ⟨configDict_lookup (varsArgs args) (PyVal.vs args.device) hd k,
    by rw [configDict_lookup (varsArgs args) (PyVal.vs args.device) hd "device", hd]⟩

/-- The fixed list of environment names with continuous action spaces from
`main`. -/
def continuous_action_envs : List String :=
  ["AntVel-v1", "AntDir-v1", "AntPos-v0", "HalfCheetahVel-v1",
   "HalfCheetahDir-v1", "2DNavigation-v0"]

/-- `continuous_actions = (args.env_name in [...])` from `main`. -/
def continuous_actions (env_name : String) : Bool :=
  continuous_action_envs.contains env_name

/-- Which policy class `main` constructs. -/
inductive PolicyKind where
  | normal
  | categorical
deriving DecidableEq

/-- The constructor arguments of the policy object built in `main`:
the policy class, the input size (product of the observation-space shape),
the output size (product of the action-space shape for the continuous case,
`action_space.n` for the categorical case), and the hidden layer sizes
`(args.hidden_size,) * args.num_layers`. -/
structure PolicySpec where
  kind : PolicyKind
  input_size : ℕ
  output_size : ℕ
  hidden_sizes : List ℕ
deriving DecidableEq

/-- The policy construction in `main`, abstracting the environment's
observation/action space dimensions as parameters. -/
def mkPolicy (args : Args) (obs_size act_size act_n : ℕ) : PolicySpec :=
  if continuous_actions args.env_name then
    { kind := PolicyKind.normal, input_size := obs_size, output_size := act_size,
      hidden_sizes := List.replicate args.num_layers args.hidden_size }
  else
    { kind := PolicyKind.categorical, input_size := obs_size, output_size := act_n,
      hidden_sizes := List.replicate args.num_layers args.hidden_size }

/-- C10: the driver constructs a `NormalMLPPolicy` (continuous actions)
precisely when the environment name is one of the six names in the fixed
continuous-action list, and a `CategoricalMLPPolicy` otherwise; in both
cases the hidden layer sizes are `hidden_size` repeated `num_layers`
times. -/
theorem c10_policy_choice (args : Args) (obs_size act_size act_n : ℕ) :
    ((mkPolicy args obs_size act_size act_n).kind = PolicyKind.normal ↔
      args.env_name ∈ continuous_action_envs) ∧
    ((mkPolicy args obs_size act_size act_n).kind = PolicyKind.categorical ↔
      args.env_name ∉ continuous_action_envs) ∧
    (mkPolicy args obs_size act_size act_n).hidden_sizes =
      List.replicate args.num_layers args.hidden_size := by
  have hbridge : continuous_actions args.env_name = true ↔
      args.env_name ∈ continuous_action_envs := by
    simp [continuous_actions, List.contains_iff_exists_mem_beq, beq_iff_eq]
  by_cases h : continuous_actions args.env_name = true
  · have hm : args.env_name ∈ continuous_action_envs := hbridge.mp h
    simp [mkPolicy, h, hm]
  · have hm : args.env_name ∉ continuous_action_envs := fun hx => h (hbridge.mpr hx)
    simp [mkPolicy, h, hm]

/-! ### Concrete instantiation -/

/-- Concrete parsed arguments (the argparse defaults, a small iteration
count, and one of the recognised environment names) used to instantiate the
theorems above at a specific input. -/
def demoArgs : Args :=
  { env_name := "2DNavigation-v0", gamma := 95 / 100, tau := 1, first_order := true,
    hidden_size := 100, num_layers := 2, fast_batch_size := 20, fast_lr := 1 / 2,
    num_batches := 2, meta_batch_size := 1, max_kl := 1 / 100, cg_iters := 10,
    cg_damping := 1 / 100000, ls_max_steps := 15, ls_backtrack := 4 / 5,
    output_folder := "maml", num_workers := 3, save_iters := 1, device := "cpu" }

/-- Concrete deterministic collaborators used to instantiate the theorems:
a task is a number, an episode is represented by its reward tensor, and the
shared parameter state is an integer. -/
def demoCollab : Collaborators ℕ Tensor ℤ ℕ :=
  { init := fun seed => seed,
    sample_tasks := fun n s => ((List.range n).map (fun t => t + s), s + 1),
    ml_sample := fun tasks _ _ s =>
      (tasks.map (fun t => (matT [[(t : ℚ)]], matT [[(t : ℚ) + 1]])), s + 1),
    ml_step := fun eps p => p + eps.length,
    rewards := fun t => t }

/-- Witness for C2 at the concrete arguments and collaborators. -/
theorem c2_two_scalar_metrics_witness :
    ∃ (evs : List (Event ℕ)) (s2 : ℕ) (p2 : ℤ) (rb ra : Tensor),
      runBatch demoCollab demoArgs 0 0 0 = some (evs, s2, p2) ∧
      total_rewards ((epsOf demoCollab demoArgs 0 0).map
        (fun pr => demoCollab.rewards pr.1)) tf_reduce_mean = some rb ∧
      total_rewards ((epsOf demoCollab demoArgs 0 0).map
        (fun pr => demoCollab.rewards pr.2)) tf_reduce_mean = some ra ∧
      evs.filter isScalarEvent =
        [Event.scalar "total_rewards/before_update" rb 0,
         Event.scalar "total_rewards/after_update" ra 0] :=
  c2_two_scalar_metrics demoCollab demoArgs 0 0 0 (by decide)

/-- Witness for C4 at the concrete arguments and collaborators. -/
theorem c4_loop_runs_all_cycles_witness :
    ∃ (blocks : List (List (Event ℕ))) (s2 : ℕ) (p2 : ℤ),
      main_run demoCollab demoArgs 0 0 = some (blocks.flatten, s2, p2) ∧
      blocks.length = demoArgs.num_batches ∧
      ∀ i, (hi : i < blocks.length) → isCycle demoArgs i (blocks.get ⟨i, hi⟩) :=
  c4_loop_runs_all_cycles demoCollab demoArgs 0 0 (by decide)

/-- Witness for C5 at the concrete arguments and collaborators. -/
theorem c5_checkpoint_schedule_witness :
    (runTrace demoCollab demoArgs 0 0).filter isSaveEvent =
      ((List.range demoArgs.num_batches).filter
        (fun i => (i + 1) % demoArgs.save_iters == 0)).flatMap
        (fun i => [Event.saveWeights (savePath demoArgs.output_folder "policy" (i + 1)),
                   Event.saveWeights (savePath demoArgs.output_folder "baseline" (i + 1))]) :=
  c5_checkpoint_schedule demoCollab demoArgs 0 0 (by decide)

/-- Witness for C7 at the concrete arguments, collaborators and seed. -/
theorem c7_deterministic_first_iteration_witness :
    paramsAfterOneIter demoCollab demoArgs 0 (0 : ℤ) =
      paramsAfterOneIter demoCollab demoArgs 0 (0 : ℤ) :=
  c7_deterministic_first_iteration demoCollab demoArgs 0 0 0 rfl
